import Mathlib

/-!
Shallow embedding of the journey/step execution engine (class Runner):
the run/journey/step state machine, its hook ordering, failure/skip
propagation, and its event-emission contract.

External collaborators (step callbacks, hooks, the browser driver, the
plugin manager) are modelled by outcome data carried on the step/journey
descriptions: each call that may throw is an `Option Err` field
(`some e` = the call throws `e`), and each call that returns a value is a
plain field.  The engine functions are then pure Lean functions that
thread the emitted event trace and instrumentation (dispose count,
invoked-step log, hook-ran flags) explicitly.
-/

deriving instance DecidableEq for Except

/-- Error values thrown by user code or collaborators. -/
abbrev Err := String

/-- Opaque metrics payload returned by the performance plugin. -/
abbrev Metrics := Nat

/-- StatusValue of a step or journey. -/
inductive Status where
  | succeeded
  | failed
  | skipped
deriving Repr, DecidableEq

/-- A request event observed on the page during a step
(`req.isNavigationRequest()` and `req.url()`). -/
structure Request where
  isNavigationRequest : Bool
  url : String
deriving Repr, DecidableEq

/-- One registered step together with the outcomes of every external call
`Runner.runStep` makes for it. -/
structure StepSpec where
  name : String
  /-- outcome of `pluginManager.onStep(step)` (inside the try block) -/
  onStepThrows : Option Err := none
  /-- outcome of `await step.callback()` (inside the try block) -/
  callbackThrows : Option Err := none
  /-- outcome of `getMetrics()` when metrics are requested (inside the try) -/
  metricsThrows : Option Err := none
  metricsValue : Metrics := 0
  /-- request events delivered to the page while the capture listener is on -/
  requests : List Request := []
  /-- `driver.page.url()` at the time the finally block runs -/
  pageUrl : String := "about:blank"
  /-- outcome of `waitForLoadState` (inside the finally block) -/
  loadStateThrows : Option Err := none
  /-- outcome of `page.screenshot` (inside the finally block) -/
  screenshotThrows : Option Err := none
  screenshotValue : String := ""
deriving Repr, DecidableEq

/-- StepResult record (`status`, `url?`, `metrics?`, `error?`, `screenshot?`). -/
structure StepResult where
  status : Status
  url : Option String := none
  metrics : Option Metrics := none
  error : Option Err := none
  screenshot : Option String := none
deriving Repr, DecidableEq

/-- JourneyResult record (`status`, `error?`). -/
structure JourneyResult where
  status : Status
  error : Option Err := none
deriving Repr, DecidableEq

/-- A journey together with the outcomes of the external calls made while
executing it.  `registeredSteps` are the steps the journey callback pushes
before (possibly) throwing `callbackThrows`; hooks are modelled by the
outcome of `runParallel` over the hook list. -/
structure JourneySpec where
  name : String
  registeredSteps : List StepSpec := []
  /-- outcome of `journey.callback(...)` after registering the steps -/
  callbackThrows : Option Err := none
  /-- outcome of `runParallel(journey.hooks.before)` -/
  beforeHooksThrow : Option Err := none
  /-- outcome of `runParallel(journey.hooks.after)` -/
  afterHooksThrow : Option Err := none
  /-- outcome of `Gatherer.setupDriver(options)` in `createContext` -/
  setupDriverThrows : Option Err := none
  /-- outcome of `Gatherer.beginRecording(driver, options)` in `createContext` -/
  beginRecordingThrows : Option Err := none
  /-- outcome of `pluginManager.output()` in `endJourney` -/
  outputThrows : Option Err := none
deriving Repr, DecidableEq

/-- The run options consumed by the engine core. -/
structure RunOptions where
  metrics : Bool := false
  screenshots : Bool := false
  pauseOnError : Bool := false
  dryRun : Bool := false
  journeyName : Option String := none
deriving Repr, DecidableEq

/-- The typed events the engine emits (payloads reduced to the identity and
result data the contract speaks about). -/
inductive Event where
  | start (numJourneys : Nat)
  | journeyRegister (jname : String)
  | journeyStart (jname : String)
  | journeyEnd (jname : String) (status : Status)
  | stepStart (jname : String) (sname : String)
  | stepEnd (jname : String) (sname : String) (result : StepResult)
  | runEnd
deriving Repr, DecidableEq

def Event.isStepStart : Event → Bool
  | .stepStart _ _ => true
  | _ => false

def Event.isStepEnd : Event → Bool
  | .stepEnd _ _ _ => true
  | _ => false

def Event.isJourneyRegister : Event → Bool
  | .journeyRegister _ => true
  | _ => false

/-- true for the events forbidden in a dry run:
`step:start`, `step:end`, `journey:start`, `journey:end`. -/
def Event.isExecutionEvent : Event → Bool
  | .stepStart _ _ => true
  | .stepEnd _ _ _ => true
  | .journeyStart _ => true
  | .journeyEnd _ _ => true
  | _ => false

/-- The `captureUrl` request listener: it is registered once, runs on the
first request event only (it removes itself unconditionally at the end of
its body), and records the URL only when that first request is a
navigation request. -/
def capturedUrl (reqs : List Request) : Option String :=
  match reqs with
  | [] => none
  | r :: _ => if r.isNavigationRequest then some r.url else none

/-- `data.url ??= driver.page.url()` in the finally block. -/
def finalUrl (s : StepSpec) : String :=
  (capturedUrl s.requests).getD s.pageUrl

/-- The try block of `Runner.runStep`: `pluginManager.onStep`, then the
step callback, then (if requested) the metrics fetch.  Returns the metrics
to attach on success, or the thrown error. -/
def tryOutcome (s : StepSpec) (opts : RunOptions) : Except Err (Option Metrics) :=
  match s.onStepThrows with
  | some e => .error e
  | none =>
    match s.callbackThrows with
    | some e => .error e
    | none =>
      if opts.metrics then
        match s.metricsThrows with
        | some e => .error e
        | none => .ok (some s.metricsValue)
      else .ok none

/-- The `data` record after the try/catch of `Runner.runStep` and the
URL fallback of its finally block: try errors are absorbed into a failed
result, and `data.url ??= driver.page.url()` always leaves a URL. -/
def stepBase (s : StepSpec) (opts : RunOptions) : StepResult :=
  match tryOutcome s opts with
  | .ok mo => { status := .succeeded, metrics := mo, url := some (finalUrl s) }
  | .error e => { status := .failed, error := some e, url := some (finalUrl s) }

/-- `Runner.runStep`.  The try/catch absorbs errors from the try block
into a failed result; the finally block then fills in the URL and, when
screenshots are requested, waits for the load state and captures a
screenshot — an exception thrown there propagates to the caller
(replacing any absorbed one), so the function returns `Except`. -/
def runStep (s : StepSpec) (opts : RunOptions) : Except Err StepResult :=
  if opts.screenshots then
    match s.loadStateThrows with
    | some e => .error e
    | none =>
      match s.screenshotThrows with
      | some e => .error e
      | none => .ok { stepBase s opts with screenshot := some s.screenshotValue }
  else .ok (stepBase s opts)

/-- Output of the step loop `Runner.runSteps`: the emitted step events,
the results array, the log of steps for which `runStep` was actually
invoked, and the propagated exception if a `runStep` call threw. -/
structure StepsOut where
  events : List Event
  results : List StepResult
  invoked : List String
  err : Option Err
deriving Repr, DecidableEq

/-- The loop body of `Runner.runSteps` with its `skipStep` flag: each
iteration emits `step:start`, either short-circuits to a skipped result or
invokes `runStep` (setting the skip flag when the result carries an
error), then emits `step:end`.  A `runStep` exception aborts the loop
before that step's `step:end` is emitted. -/
def stepsGo (jn : String) (opts : RunOptions) :
    List StepSpec → Bool → StepsOut
  | [], _ => { events := [], results := [], invoked := [], err := none }
  | s :: rest, skip =>
    if skip then
      let data : StepResult := { status := .skipped }
      let o := stepsGo jn opts rest skip
      { events := Event.stepStart jn s.name :: Event.stepEnd jn s.name data :: o.events
        results := data :: o.results
        invoked := o.invoked
        err := o.err }
    else
      match runStep s opts with
      | .error e =>
        { events := [Event.stepStart jn s.name]
          results := []
          invoked := [s.name]
          err := some e }
      | .ok data =>
        let o := stepsGo jn opts rest data.error.isSome
        { events := Event.stepStart jn s.name :: Event.stepEnd jn s.name data :: o.events
          results := data :: o.results
          invoked := s.name :: o.invoked
          err := o.err }

/-- `Runner.runSteps` starts the loop with the skip flag false. -/
def runStepsFn (j : JourneySpec) (opts : RunOptions) : StepsOut :=
  stepsGo j.name opts j.registeredSteps false

/-- The result a skipped step receives in the loop of `Runner.runSteps`. -/
def skippedResult : StepResult := { status := Status.skipped }

/-- One iteration of the roll-up loop in `Runner.runJourney`: a failed
step result overwrites the accumulated status and error. -/
def rollupStep (acc : JourneyResult) (r : StepResult) : JourneyResult :=
  if r.status = .failed then { status := .failed, error := r.error } else acc

/-- The roll-up loop in `Runner.runJourney`, starting from succeeded. -/
def rollup (results : List StepResult) : JourneyResult :=
  results.foldl rollupStep { status := .succeeded, error := none }

/-- Outcome of the try/catch part of `Runner.runJourney` (after the
context was created): the step events emitted, the `result` local after
the catch ran (if it did), whether the before/after hook phases were
invoked, and the step results when the step loop completed. -/
structure TryOut where
  events : List Event
  jres : JourneyResult
  beforeRan : Bool
  afterRan : Bool
  stepResults : Option (List StepResult)
deriving Repr, DecidableEq

/-- The try block of `Runner.runJourney` with its catch: registration
(which already emitted `journey:start` before the callback runs), before
hooks, the step loop, the roll-up, after hooks.  Any throw jumps to the
catch, which sets status failed and records the error. -/
def tryPhase (j : JourneySpec) (opts : RunOptions) : TryOut :=
  match j.callbackThrows with
  | some e => { events := [], jres := { status := .failed, error := some e },
                beforeRan := false, afterRan := false, stepResults := none }
  | none =>
    match j.beforeHooksThrow with
    | some e => { events := [], jres := { status := .failed, error := some e },
                  beforeRan := true, afterRan := false, stepResults := none }
    | none =>
      let so := runStepsFn j opts
      match so.err with
      | some e => { events := so.events, jres := { status := .failed, error := some e },
                    beforeRan := true, afterRan := false, stepResults := none }
      | none =>
        let jr := rollup so.results
        match j.afterHooksThrow with
        | some e => { events := so.events, jres := { status := .failed, error := some e },
                      beforeRan := true, afterRan := true, stepResults := some so.results }
        | none => { events := so.events, jres := jr,
                    beforeRan := true, afterRan := true, stepResults := some so.results }

/-- Observable outcome of one `Runner.runJourney` call. -/
structure JourneyExec where
  /-- the events this journey emitted -/
  events : List Event
  /-- normal return value, or the exception that propagated to the caller -/
  result : Except Err JourneyResult
  /-- whether `setupDriver` returned a driver -/
  driverCreated : Bool
  /-- number of `Gatherer.dispose(context.driver)` calls -/
  disposeCount : Nat
  beforeHooksRan : Bool
  afterHooksRan : Bool
  /-- whether `this.currentJourney` was assigned (inside `registerJourney`) -/
  currentSet : Bool
  stepResults : Option (List StepResult)
deriving Repr, DecidableEq

/-- `Runner.runJourney`.  `createContext` runs before the try/finally: a
throw there propagates directly (no dispose).  In the finally,
`endJourney` awaits `pluginManager.output()` before emitting
`journey:end`; if `output` throws, neither `journey:end` nor the
subsequent `dispose` happens and the exception propagates. -/
def runJourney (j : JourneySpec) (opts : RunOptions) : JourneyExec :=
  match j.setupDriverThrows with
  | some e =>
    { events := [], result := .error e, driverCreated := false, disposeCount := 0,
      beforeHooksRan := false, afterHooksRan := false, currentSet := false,
      stepResults := none }
  | none =>
    match j.beginRecordingThrows with
    | some e =>
      { events := [], result := .error e, driverCreated := true, disposeCount := 0,
        beforeHooksRan := false, afterHooksRan := false, currentSet := false,
        stepResults := none }
    | none =>
      let t := tryPhase j opts
      let evs := Event.journeyStart j.name :: t.events
      match j.outputThrows with
      | some e =>
        { events := evs, result := .error e, driverCreated := true, disposeCount := 0,
          beforeHooksRan := t.beforeRan, afterHooksRan := t.afterRan,
          currentSet := true, stepResults := t.stepResults }
      | none =>
        { events := evs ++ [Event.journeyEnd j.name t.jres.status],
          result := .ok t.jres, driverCreated := true, disposeCount := 1,
          beforeHooksRan := t.beforeRan, afterHooksRan := t.afterRan,
          currentSet := true, stepResults := t.stepResults }

/-- The engine-instance state `run` reads and mutates.  The run-level
hook lists are carried as the outcome of `runParallel` over them. -/
structure RunnerState where
  active : Bool := false
  journeys : List JourneySpec := []
  currentJourney : Option String := none
  beforeAllThrow : Option Err := none
  afterAllThrow : Option Err := none
  /-- number of reporters constructed and attached to this instance -/
  reporterCount : Nat := 0
deriving Repr, DecidableEq

/-- Output of the journey loop inside `Runner.run`. -/
structure LoopOut where
  events : List Event
  results : List (String × JourneyResult)
  executed : List String
  current : Option String
  err : Option Err
deriving Repr, DecidableEq

/-- The for-loop of `Runner.run`: dry-run registers and continues, the
name filter skips non-matching journeys, otherwise `runJourney` runs and
its result is recorded; a journey exception aborts the loop. -/
def runLoop (opts : RunOptions) :
    List JourneySpec → Option String → LoopOut
  | [], cur => { events := [], results := [], executed := [], current := cur, err := none }
  | j :: rest, cur =>
    if opts.dryRun then
      let o := runLoop opts rest cur
      { o with events := Event.journeyRegister j.name :: o.events }
    else if opts.journeyName.isSome && opts.journeyName ≠ some j.name then
      runLoop opts rest cur
    else
      let je := runJourney j opts
      let cur1 := if je.currentSet then some j.name else cur
      match je.result with
      | .error e =>
        { events := je.events, results := [], executed := [j.name],
          current := cur1, err := some e }
      | .ok jr =>
        let o := runLoop opts rest cur1
        { events := je.events ++ o.events
          results := (j.name, jr) :: o.results
          executed := j.name :: o.executed
          current := o.current
          err := o.err }

/-- Observable outcome of one `Runner.run` call. -/
structure RunOut where
  result : Except Err (List (String × JourneyResult))
  events : List Event
  executed : List String
  finalState : RunnerState
deriving Repr, DecidableEq

/-- `Runner.run`: the reentrancy guard returns the empty result before
any side effect; otherwise the active flag is set, a reporter attached,
`start` emitted, `beforeAll` run, the journey loop run, `afterAll` run,
then `reset` and the `end` event.  `beforeAll`/`afterAll`/journey
exceptions propagate out before `reset`. -/
def runFn (opts : RunOptions) (s : RunnerState) : RunOut :=
  if s.active then
    { result := .ok [], events := [], executed := [], finalState := s }
  else
    let s1 : RunnerState :=
      { s with active := true, reporterCount := s.reporterCount + 1 }
    let ev0 : List Event := [Event.start s.journeys.length]
    match s.beforeAllThrow with
    | some e => { result := .error e, events := ev0, executed := [], finalState := s1 }
    | none =>
      let lo := runLoop opts s.journeys s.currentJourney
      let s2 : RunnerState := { s1 with currentJourney := lo.current }
      match lo.err with
      | some e =>
        { result := .error e, events := ev0 ++ lo.events, executed := lo.executed,
          finalState := s2 }
      | none =>
        match s.afterAllThrow with
        | some e =>
          { result := .error e, events := ev0 ++ lo.events, executed := lo.executed,
            finalState := s2 }
        | none =>
          let s3 : RunnerState :=
            { s2 with active := false, journeys := [], currentJourney := none }
          { result := .ok lo.results
            events := ev0 ++ lo.events ++ [Event.runEnd]
            executed := lo.executed
            finalState := s3 }

/-- Refinement reference, following the specification words for the step
URL: the URL of the first navigation request observed during the step. -/
def firstNavUrl (reqs : List Request) : Option String :=
  (reqs.find? (fun r => r.isNavigationRequest)).map (fun r => r.url)

/-- URL field of a step outcome, none when the step threw. -/
def urlOf : Except Err StepResult → Option String
  | .ok r => r.url
  | .error _ => none

/-- Status field of a step outcome, none when the step threw. -/
def statusOf : Except Err StepResult → Option Status
  | .ok r => some r.status
  | .error _ => none

/-- Error field of a step outcome, none when the step threw. -/
def errorOf : Except Err StepResult → Option Err
  | .ok r => r.error
  | .error _ => none

/-- The first exception thrown inside the try block of `runJourney`
before the after-hook stage: registration callback, then before hooks,
then an exception propagated out of the step loop. -/
def earlyError (j : JourneySpec) (opts : RunOptions) : Option Err :=
  match j.callbackThrows with
  | some e => some e
  | none =>
    match j.beforeHooksThrow with
    | some e => some e
    | none => (runStepsFn j opts).err

/-- No stage of this journey's execution throws an exception. -/
def NoThrowJourney (j : JourneySpec) (opts : RunOptions) : Prop :=
  j.setupDriverThrows = none ∧ j.beginRecordingThrows = none ∧
  j.callbackThrows = none ∧ j.beforeHooksThrow = none ∧
  j.afterHooksThrow = none ∧ j.outputThrows = none ∧
  (runStepsFn j opts).err = none

/-- The canonical event block of one executed journey: `journey:start`,
the step events, `journey:end` with the rolled-up status. -/
def journeyTrace (j : JourneySpec) (opts : RunOptions) : List Event :=
  Event.journeyStart j.name :: (runStepsFn j opts).events ++
    [Event.journeyEnd j.name (rollup (runStepsFn j opts).results).status]

/-- Concatenation of the event blocks of a list of journeys, one after
the other (journeys never interleave). -/
def journeysEvents (opts : RunOptions) : List JourneySpec → List Event
  | [] => []
  | j :: rest => (runJourney j opts).events ++ journeysEvents opts rest

/-- An event list consisting of a `step:start` immediately followed by
the matching `step:end`, for each step name in order. -/
inductive PairedTrace (jn : String) : List String → List Event → Prop
  | nil : PairedTrace jn [] []
  | cons (sn : String) (r : StepResult) (names : List String) (evs : List Event) :
      PairedTrace jn names evs →
      PairedTrace jn (sn :: names)
        (Event.stepStart jn sn :: Event.stepEnd jn sn r :: evs)

/-! ### Concrete instances used as test vectors -/

/-- Plain options: no metrics, no screenshots, no dry run, no filter. -/
def plainOpts : RunOptions := {}

/-- Options with screenshot capture requested. -/
def shotOpts : RunOptions := { screenshots := true }

/-- Dry-run options. -/
def dryOpts : RunOptions := { dryRun := true }

/-- A step that succeeds. -/
def stepA : StepSpec := { name := "A" }

/-- A step whose callback throws the error x. -/
def stepB : StepSpec := { name := "B", callbackThrows := some "x" }

/-- A step that succeeds. -/
def stepC : StepSpec := { name := "C" }

/-- The scenario journey: steps A (succeeds), B (throws x), C (succeeds). -/
def jW1 : JourneySpec := { name := "j1", registeredSteps := [stepA, stepB, stepC] }

/-- A journey with no steps that succeeds. -/
def jNext : JourneySpec := { name := "next" }

/-- A journey whose `beginRecording` throws during context creation. -/
def jRecFail : JourneySpec := { name := "jrec", beginRecordingThrows := some "rec" }

/-- A journey whose `pluginManager.output()` throws at journey end. -/
def jOutFail : JourneySpec := { name := "jout", outputThrows := some "out" }

/-- A journey whose `setupDriver` throws during context creation. -/
def jSetupFail : JourneySpec := { name := "jboom", setupDriverThrows := some "boom" }

/-- A journey whose registration callback throws. -/
def jRegFail : JourneySpec := { name := "jreg", callbackThrows := some "reg" }

/-- A journey whose before hooks throw. -/
def jBeforeFail : JourneySpec := { name := "jbh", beforeHooksThrow := some "bh" }

/-- A step whose `waitForLoadState` (finally block) throws. -/
def sLoadFail : StepSpec := { name := "sload", loadStateThrows := some "ls" }

/-- A step whose `page.screenshot` (finally block) throws. -/
def sShotFail : StepSpec := { name := "sshot", screenshotThrows := some "sc" }

/-- A step whose callback throws. -/
def sCbFail : StepSpec := { name := "scb", callbackThrows := some "cx" }

/-- A step whose first observed request is not a navigation request while a
later one is: the navigation URL u2 is never captured. -/
def sNavSecond : StepSpec :=
  { name := "snav", requests := [⟨false, "other"⟩, ⟨true, "u2"⟩], pageUrl := "p" }

/-- A step whose first observed request is a navigation request. -/
def sNavFirst : StepSpec :=
  { name := "snf", requests := [⟨true, "u1"⟩], pageUrl := "p2" }

/-- A journey with a single step whose screenshot stage throws. -/
def jShotThrow : JourneySpec := { name := "jshot", registeredSteps := [sLoadFail] }

/-- Engine state with an active run already in flight. -/
def stActive : RunnerState := { active := true, journeys := [jW1] }

/-- Engine state with two registered journeys. -/
def stTwo : RunnerState := { journeys := [jW1, jNext] }

/-- Engine state whose first journey aborts the run at context creation. -/
def stSetupFail : RunnerState := { journeys := [jSetupFail, jNext] }

/-- Engine state whose beforeAll hook throws. -/
def stBeforeAll : RunnerState := { journeys := [], beforeAllThrow := some "ba" }

/-! ### Helper lemmas -/

theorem stepBase_url (s : StepSpec) (opts : RunOptions) :
    (stepBase s opts).url = some (finalUrl s) := by
  unfold stepBase
  cases h : tryOutcome s opts <;> simp

theorem stepBase_cases (s : StepSpec) (opts : RunOptions) :
    ((stepBase s opts).status = Status.succeeded ∧ (stepBase s opts).error = none ∧
      tryOutcome s opts = Except.ok (stepBase s opts).metrics) ∨
    (∃ e, (stepBase s opts).status = Status.failed ∧ (stepBase s opts).error = some e ∧
      tryOutcome s opts = Except.error e) := by
  unfold stepBase
  cases h : tryOutcome s opts with
  | ok mo => left; simp
  | error e => right; exact ⟨e, by simp⟩

theorem runStep_ok_fields (s : StepSpec) (opts : RunOptions) (r : StepResult)
    (h : runStep s opts = Except.ok r) :
    r.status = (stepBase s opts).status ∧ r.error = (stepBase s opts).error ∧
    r.url = (stepBase s opts).url := by
  unfold runStep at h
  split at h
  · split at h
    · simp at h
    · split at h
      · simp at h
      · simp only [Except.ok.injEq] at h
        subst h
        exact ⟨rfl, rfl, rfl⟩
  · simp only [Except.ok.injEq] at h
    subst h
    exact ⟨rfl, rfl, rfl⟩

theorem runStep_ok_trichotomy (s : StepSpec) (opts : RunOptions) (r : StepResult)
    (h : runStep s opts = Except.ok r) :
    (r.status = Status.succeeded ∧ r.error = none) ∨
    (r.status = Status.failed ∧ r.error.isSome = true) := by
  obtain ⟨hs, he, _⟩ := runStep_ok_fields s opts r h
  rcases stepBase_cases s opts with ⟨h1, h2, _⟩ | ⟨e, h1, h2, _⟩
  · left; exact ⟨hs.trans h1, he.trans h2⟩
  · right; refine ⟨hs.trans h1, ?_⟩
    rw [he, h2]; rfl

theorem runStep_ok_not_skipped (s : StepSpec) (opts : RunOptions) (r : StepResult)
    (h : runStep s opts = Except.ok r) : r.status ≠ Status.skipped := by
  rcases runStep_ok_trichotomy s opts r h with ⟨h1, _⟩ | ⟨h1, _⟩ <;> simp [h1]

theorem runStep_ok_not_failed (s : StepSpec) (opts : RunOptions) (r : StepResult)
    (h : runStep s opts = Except.ok r) (hnf : r.status ≠ Status.failed) :
    r.status = Status.succeeded ∧ r.error = none := by
  rcases runStep_ok_trichotomy s opts r h with ⟨h1, h2⟩ | ⟨h1, _⟩
  · exact ⟨h1, h2⟩
  · exact absurd h1 hnf

theorem runStep_ok_failed_error (s : StepSpec) (opts : RunOptions) (r : StepResult)
    (h : runStep s opts = Except.ok r) (hf : r.status = Status.failed) :
    r.error.isSome = true := by
  rcases runStep_ok_trichotomy s opts r h with ⟨h1, _⟩ | ⟨_, h2⟩
  · rw [h1] at hf; cases hf
  · exact h2

theorem foldl_rollupStep_no_fail :
    ∀ (l : List StepResult) (acc : JourneyResult),
      (∀ r ∈ l, r.status ≠ Status.failed) → l.foldl rollupStep acc = acc
  | [], _, _ => rfl
  | r :: rest, acc, h => by
    have h0 : r.status ≠ Status.failed := h r (by simp)
    rw [List.foldl_cons, rollupStep, if_neg h0]
    exact foldl_rollupStep_no_fail rest acc (fun x hx => h x (by simp [hx]))

theorem stepsGo_skip_true (jn : String) (opts : RunOptions) :
    ∀ steps : List StepSpec,
      (stepsGo jn opts steps true).results = steps.map (fun _ => skippedResult) ∧
      (stepsGo jn opts steps true).invoked = [] ∧
      (stepsGo jn opts steps true).err = none
  | [] => by simp [stepsGo]
  | s :: rest => by
    have ih := stepsGo_skip_true jn opts rest
    simp only [stepsGo, if_pos rfl, List.map_cons]
    exact ⟨by rw [ih.1]; rfl, ih.2.1, ih.2.2⟩

theorem stepsGo_cons_false (jn : String) (opts : RunOptions) (s : StepSpec)
    (rest : List StepSpec) :
    stepsGo jn opts (s :: rest) false =
      match runStep s opts with
      | .error e =>
        { events := [Event.stepStart jn s.name], results := [],
          invoked := [s.name], err := some e }
      | .ok data =>
        { events := Event.stepStart jn s.name :: Event.stepEnd jn s.name data ::
            (stepsGo jn opts rest data.error.isSome).events
          results := data :: (stepsGo jn opts rest data.error.isSome).results
          invoked := s.name :: (stepsGo jn opts rest data.error.isSome).invoked
          err := (stepsGo jn opts rest data.error.isSome).err } := by
  simp only [stepsGo, if_neg (by simp : ¬(false = true))]

theorem stepsGo_results_length (jn : String) (opts : RunOptions) :
    ∀ (steps : List StepSpec) (skip : Bool),
      (stepsGo jn opts steps skip).err = none →
      (stepsGo jn opts steps skip).results.length = steps.length
  | [], _, _ => by simp [stepsGo]
  | s :: rest, true, h => by
    have hr := (stepsGo_skip_true jn opts (s :: rest)).1
    rw [hr, List.length_map]
  | s :: rest, false, h => by
    rw [stepsGo_cons_false] at h ⊢
    cases hrs : runStep s opts with
    | error e => rw [hrs] at h; simp at h
    | ok data =>
      rw [hrs] at h
      dsimp only at h ⊢
      simp only [List.length_cons]
      rw [stepsGo_results_length jn opts rest data.error.isSome h]

theorem skippedResult_not_failed : skippedResult.status ≠ Status.failed := by
  simp [skippedResult]

theorem mem_map_skipped_not_failed (rest : List StepSpec) :
    ∀ r ∈ rest.map (fun _ => skippedResult), r.status ≠ Status.failed := by
  intro r hr
  rcases List.mem_map.mp hr with ⟨a, _, rfl⟩
  exact skippedResult_not_failed

theorem stepsGo_first_fail (jn : String) (opts : RunOptions) :
    ∀ (steps : List StepSpec) (k : Nat) (rk : StepResult),
      (stepsGo jn opts steps false).err = none →
      (stepsGo jn opts steps false).results[k]? = some rk →
      rk.status = Status.failed →
      (∀ i ri, i < k → (stepsGo jn opts steps false).results[i]? = some ri →
        ri.status ≠ Status.failed) →
      (stepsGo jn opts steps false).invoked = (steps.take (k+1)).map StepSpec.name ∧
      (∀ i ri, i < k → (stepsGo jn opts steps false).results[i]? = some ri →
        ri.status = Status.succeeded) ∧
      (∀ i ri, k < i → (stepsGo jn opts steps false).results[i]? = some ri →
        ri = skippedResult) ∧
      rk.error.isSome = true ∧
      rollup (stepsGo jn opts steps false).results =
        { status := Status.failed, error := rk.error }
  | [], k, rk => by
    intro _ hk
    simp [stepsGo] at hk
  | s :: rest, k, rk => by
    intro herr hk hfail hfirst
    rw [stepsGo_cons_false] at herr hk hfirst ⊢
    cases hrs : runStep s opts with
    | error e =>
      rw [hrs] at herr
      simp at herr
    | ok data =>
      rw [hrs] at herr hk hfirst
      dsimp only at herr hk hfirst ⊢
      cases k with
      | zero =>
        rw [List.getElem?_cons_zero, Option.some.injEq] at hk
        subst hk
        have hskip : data.error.isSome = true :=
          runStep_ok_failed_error s opts data hrs hfail
        rw [hskip] at herr ⊢
        have hst := stepsGo_skip_true jn opts rest
        refine ⟨?_, ?_, ?_, rfl, ?_⟩
        · rw [hst.2.1]
          simp
        · intro i ri hi
          omega
        · intro i ri hi hri
          cases i with
          | zero => omega
          | succ m =>
            rw [List.getElem?_cons_succ, hst.1, List.getElem?_map] at hri
            cases hrm : rest[m]? with
            | none => rw [hrm] at hri; simp at hri
            | some a =>
              rw [hrm] at hri
              simp only [Option.map_some', Option.some.injEq] at hri
              exact hri.symm
        · rw [hst.1]
          unfold rollup
          rw [List.foldl_cons, rollupStep, if_pos hfail]
          exact foldl_rollupStep_no_fail _ _ (mem_map_skipped_not_failed rest)
      | succ k' =>
        have hd0 : data.status ≠ Status.failed :=
          hfirst 0 data (by omega) (by rw [List.getElem?_cons_zero])
        obtain ⟨hds, hde⟩ := runStep_ok_not_failed s opts data hrs hd0
        rw [hde] at herr hk hfirst ⊢
        simp only [Option.isSome_none] at herr hk hfirst ⊢
        rw [List.getElem?_cons_succ] at hk
        have hfirst' : ∀ i ri, i < k' →
            (stepsGo jn opts rest false).results[i]? = some ri →
            ri.status ≠ Status.failed := by
          intro i ri hi hri
          exact hfirst (i+1) ri (by omega) (by rw [List.getElem?_cons_succ]; exact hri)
        have ih := stepsGo_first_fail jn opts rest k' rk herr hk hfail hfirst'
        refine ⟨?_, ?_, ?_, ih.2.2.2.1, ?_⟩
        · rw [List.take_succ_cons, List.map_cons, ih.1]
        · intro i ri hi hri
          cases i with
          | zero =>
            rw [List.getElem?_cons_zero, Option.some.injEq] at hri
            subst hri
            exact hds
          | succ m =>
            rw [List.getElem?_cons_succ] at hri
            exact ih.2.1 m ri (by omega) hri
        · intro i ri hi hri
          cases i with
          | zero => omega
          | succ m =>
            rw [List.getElem?_cons_succ] at hri
            exact ih.2.2.1 m ri (by omega) hri
        · unfold rollup
          rw [List.foldl_cons, rollupStep, if_neg hd0]
          exact ih.2.2.2.2

theorem stepsGo_skipped_iff (jn : String) (opts : RunOptions) :
    ∀ (steps : List StepSpec),
      (stepsGo jn opts steps false).err = none →
      ∀ (i : Nat) (ri : StepResult), (stepsGo jn opts steps false).results[i]? = some ri →
        (ri.status = Status.skipped ↔
          ∃ (m : Nat), m < i ∧ ∃ (rm : StepResult),
            (stepsGo jn opts steps false).results[m]? = some rm ∧
            rm.status = Status.failed)
  | [] => by
    intro _ i ri hri
    simp [stepsGo] at hri
  | s :: rest => by
    intro herr i ri hri
    rw [stepsGo_cons_false] at herr hri ⊢
    cases hrs : runStep s opts with
    | error e =>
      rw [hrs] at herr
      simp at herr
    | ok data =>
      rw [hrs] at herr hri
      dsimp only at herr hri ⊢
      cases i with
      | zero =>
        rw [List.getElem?_cons_zero, Option.some.injEq] at hri
        subst hri
        constructor
        · intro h
          exact absurd h (runStep_ok_not_skipped s opts data hrs)
        · rintro ⟨m, hm, _⟩
          omega
      | succ n =>
        rw [List.getElem?_cons_succ] at hri
        rcases runStep_ok_trichotomy s opts data hrs with ⟨hds, hde⟩ | ⟨hds, hde⟩
        · have hde' : data.error.isSome = false := by rw [hde]; rfl
          rw [hde'] at herr hri
          have ih := stepsGo_skipped_iff jn opts rest herr n ri hri
          rw [hde']
          constructor
          · intro h
            rcases ih.mp h with ⟨m, hm, rm, hrm, hrmf⟩
            exact ⟨m + 1, by omega, rm, by rw [List.getElem?_cons_succ]; exact hrm, hrmf⟩
          · rintro ⟨m, hm, rm, hrm, hrmf⟩
            cases m with
            | zero =>
              rw [List.getElem?_cons_zero, Option.some.injEq] at hrm
              subst hrm
              rw [hds] at hrmf
              cases hrmf
            | succ m' =>
              rw [List.getElem?_cons_succ] at hrm
              exact ih.mpr ⟨m', by omega, rm, hrm, hrmf⟩
        · rw [hde] at herr hri ⊢
          have hst := stepsGo_skip_true jn opts rest
          constructor
          · intro _
            refine ⟨0, by omega, data, ?_, hds⟩
            rw [List.getElem?_cons_zero]
          · intro _
            rw [hst.1, List.getElem?_map] at hri
            cases hrm : rest[n]? with
            | none => rw [hrm] at hri; simp at hri
            | some a =>
              rw [hrm] at hri
              simp only [Option.map_some', Option.some.injEq] at hri
              rw [← hri]
              rfl

theorem stepsGo_paired (jn : String) (opts : RunOptions) :
    ∀ (steps : List StepSpec) (skip : Bool),
      (stepsGo jn opts steps skip).err = none →
      PairedTrace jn (steps.map StepSpec.name) (stepsGo jn opts steps skip).events
  | [], _, _ => by
    simpa [stepsGo] using PairedTrace.nil
  | s :: rest, true, h => by
    simp only [stepsGo, if_pos rfl] at h ⊢
    exact PairedTrace.cons s.name _ _ _ (stepsGo_paired jn opts rest true h)
  | s :: rest, false, h => by
    rw [stepsGo_cons_false] at h ⊢
    cases hrs : runStep s opts with
    | error e =>
      rw [hrs] at h
      simp at h
    | ok data =>
      rw [hrs] at h
      dsimp only at h ⊢
      exact PairedTrace.cons s.name data _ _
        (stepsGo_paired jn opts rest data.error.isSome h)

theorem stepsGo_no_runEnd (jn : String) (opts : RunOptions) :
    ∀ (steps : List StepSpec) (skip : Bool),
      Event.runEnd ∉ (stepsGo jn opts steps skip).events
  | [], _ => by simp [stepsGo]
  | s :: rest, true => by
    simp only [stepsGo, if_pos rfl]
    intro hmem
    rcases List.mem_cons.mp hmem with h | hmem
    · cases h
    rcases List.mem_cons.mp hmem with h | hmem
    · cases h
    exact stepsGo_no_runEnd jn opts rest true hmem
  | s :: rest, false => by
    rw [stepsGo_cons_false]
    cases hrs : runStep s opts with
    | error e => simp
    | ok data =>
      dsimp only
      intro hmem
      rcases List.mem_cons.mp hmem with h | hmem
      · cases h
      rcases List.mem_cons.mp hmem with h | hmem
      · cases h
      exact stepsGo_no_runEnd jn opts rest data.error.isSome hmem

theorem tryPhase_no_runEnd (j : JourneySpec) (opts : RunOptions) :
    Event.runEnd ∉ (tryPhase j opts).events := by
  unfold tryPhase
  cases j.callbackThrows with
  | some e => simp
  | none =>
    cases j.beforeHooksThrow with
    | some e => simp
    | none =>
      dsimp only
      cases h : (runStepsFn j opts).err with
      | some e =>
        dsimp only
        exact stepsGo_no_runEnd j.name opts j.registeredSteps false
      | none =>
        dsimp only
        cases j.afterHooksThrow with
        | some e => exact stepsGo_no_runEnd j.name opts j.registeredSteps false
        | none => exact stepsGo_no_runEnd j.name opts j.registeredSteps false

theorem runJourney_no_runEnd (j : JourneySpec) (opts : RunOptions) :
    Event.runEnd ∉ (runJourney j opts).events := by
  unfold runJourney
  cases j.setupDriverThrows with
  | some e => simp
  | none =>
    cases j.beginRecordingThrows with
    | some e => simp
    | none =>
      dsimp only
      cases j.outputThrows with
      | some e =>
        dsimp only
        intro hmem
        rcases List.mem_cons.mp hmem with h | hmem
        · cases h
        exact tryPhase_no_runEnd j opts hmem
      | none =>
        dsimp only
        intro hmem
        rcases List.mem_cons.mp hmem with h | hmem
        · cases h
        rcases List.mem_append.mp hmem with hmem | h
        · exact tryPhase_no_runEnd j opts hmem
        · rcases List.mem_singleton.mp h with h
          cases h

theorem runLoop_no_runEnd (opts : RunOptions) :
    ∀ (js : List JourneySpec) (cur : Option String),
      Event.runEnd ∉ (runLoop opts js cur).events
  | [], _ => by simp [runLoop]
  | j :: rest, cur => by
    unfold runLoop
    by_cases hdry : opts.dryRun
    · simp only [if_pos hdry]
      intro hmem
      rcases List.mem_cons.mp hmem with h | hmem
      · cases h
      exact runLoop_no_runEnd opts rest cur hmem
    · simp only [if_neg hdry]
      by_cases hfil : opts.journeyName.isSome && opts.journeyName ≠ some j.name
      · simp only [if_pos hfil]
        exact runLoop_no_runEnd opts rest cur
      · simp only [if_neg hfil]
        cases h : (runJourney j opts).result with
        | error e => exact runJourney_no_runEnd j opts
        | ok jr =>
          dsimp only
          intro hmem
          rcases List.mem_append.mp hmem with hmem | hmem
          · exact runJourney_no_runEnd j opts hmem
          · exact runLoop_no_runEnd opts rest
              (if (runJourney j opts).currentSet then some j.name else cur) hmem

theorem tryPhase_no_throw (j : JourneySpec) (opts : RunOptions)
    (h3 : j.callbackThrows = none) (h4 : j.beforeHooksThrow = none)
    (h7 : (runStepsFn j opts).err = none) (h5 : j.afterHooksThrow = none) :
    tryPhase j opts =
      { events := (runStepsFn j opts).events,
        jres := rollup (runStepsFn j opts).results,
        beforeRan := true, afterRan := true,
        stepResults := some (runStepsFn j opts).results } := by
  unfold tryPhase
  rw [h3, h4]
  dsimp only
  rw [h7]
  dsimp only
  rw [h5]

theorem runJourney_no_throw (j : JourneySpec) (opts : RunOptions)
    (h1 : j.setupDriverThrows = none) (h2 : j.beginRecordingThrows = none)
    (h6 : j.outputThrows = none) :
    runJourney j opts =
      { events := Event.journeyStart j.name :: (tryPhase j opts).events ++
          [Event.journeyEnd j.name (tryPhase j opts).jres.status],
        result := Except.ok (tryPhase j opts).jres,
        driverCreated := true, disposeCount := 1,
        beforeHooksRan := (tryPhase j opts).beforeRan,
        afterHooksRan := (tryPhase j opts).afterRan,
        currentSet := true, stepResults := (tryPhase j opts).stepResults } := by
  unfold runJourney
  rw [h1, h2]
  dsimp only
  rw [h6]

theorem runLoop_dryRun (opts : RunOptions) (h : opts.dryRun = true) :
    ∀ (js : List JourneySpec) (cur : Option String),
      runLoop opts js cur =
        { events := js.map (fun j => Event.journeyRegister j.name),
          results := [], executed := [], current := cur, err := none }
  | [], cur => by simp [runLoop]
  | j :: rest, cur => by
    unfold runLoop
    simp only [h, if_true]
    rw [runLoop_dryRun opts h rest cur]
    rfl

theorem runLoop_all_ok (opts : RunOptions) (hdry : opts.dryRun = false)
    (hname : opts.journeyName = none) :
    ∀ (js : List JourneySpec) (cur : Option String),
      (∀ j ∈ js, ∃ jr, (runJourney j opts).result = Except.ok jr) →
      (runLoop opts js cur).err = none ∧
      (runLoop opts js cur).events = journeysEvents opts js ∧
      (runLoop opts js cur).executed = js.map JourneySpec.name
  | [], cur, _ => by simp [runLoop, journeysEvents]
  | j :: rest, cur, h => by
    obtain ⟨jr, hjr⟩ := h j (by simp)
    have ih := runLoop_all_ok opts hdry hname rest
      (if (runJourney j opts).currentSet then some j.name else cur)
      (fun x hx => h x (by simp [hx]))
    unfold runLoop
    simp [hdry, hname, hjr, journeysEvents, ih.1, ih.2.1, ih.2.2]

theorem tryPhase_early_jres (j : JourneySpec) (opts : RunOptions) (e : Err)
    (h : earlyError j opts = some e) :
    (tryPhase j opts).jres = { status := Status.failed, error := some e } ∧
    (tryPhase j opts).afterRan = false := by
  unfold earlyError at h
  unfold tryPhase
  cases hc : j.callbackThrows with
  | some e1 =>
    rw [hc, Option.some.injEq] at h
    subst h
    exact ⟨rfl, rfl⟩
  | none =>
    rw [hc] at h
    dsimp only at h ⊢
    cases hb : j.beforeHooksThrow with
    | some e1 =>
      rw [hb, Option.some.injEq] at h
      subst h
      exact ⟨rfl, rfl⟩
    | none =>
      rw [hb] at h
      dsimp only at h ⊢
      rw [h]
      exact ⟨rfl, rfl⟩

theorem tryPhase_after_throw (j : JourneySpec) (opts : RunOptions) (e : Err)
    (hno : earlyError j opts = none) (ha : j.afterHooksThrow = some e) :
    (tryPhase j opts).jres = { status := Status.failed, error := some e } ∧
    (tryPhase j opts).afterRan = true := by
  unfold earlyError at hno
  unfold tryPhase
  cases hc : j.callbackThrows with
  | some e1 => rw [hc] at hno; simp at hno
  | none =>
    rw [hc] at hno
    dsimp only at hno ⊢
    cases hb : j.beforeHooksThrow with
    | some e1 => rw [hb] at hno; simp at hno
    | none =>
      rw [hb] at hno
      dsimp only at hno ⊢
      rw [hno]
      dsimp only
      rw [ha]
      exact ⟨rfl, rfl⟩

theorem tryPhase_no_early_afterRan (j : JourneySpec) (opts : RunOptions)
    (hno : earlyError j opts = none) : (tryPhase j opts).afterRan = true := by
  unfold earlyError at hno
  unfold tryPhase
  cases hc : j.callbackThrows with
  | some e1 => rw [hc] at hno; simp at hno
  | none =>
    rw [hc] at hno
    dsimp only at hno ⊢
    cases hb : j.beforeHooksThrow with
    | some e1 => rw [hb] at hno; simp at hno
    | none =>
      rw [hb] at hno
      dsimp only at hno ⊢
      rw [hno]
      dsimp only
      cases j.afterHooksThrow <;> rfl

theorem runStep_ok_of_fin (s : StepSpec) (opts : RunOptions)
    (hfin : opts.screenshots = false ∨
      (s.loadStateThrows = none ∧ s.screenshotThrows = none)) :
    ∃ r, runStep s opts = Except.ok r := by
  unfold runStep
  rcases hfin with hf | ⟨hl, hs2⟩
  · rw [hf]
    exact ⟨stepBase s opts, by simp⟩
  · by_cases hsc : opts.screenshots = true
    · rw [hsc, if_pos rfl, hl, hs2]
      exact ⟨_, rfl⟩
    · have hsc' : opts.screenshots = false := by simpa using hsc
      rw [hsc']
      exact ⟨stepBase s opts, by simp⟩

theorem countP_register_map (js : List JourneySpec) :
    ((js.map fun j => Event.journeyRegister j.name).countP Event.isJourneyRegister)
      = js.length := by
  induction js with
  | nil => rfl
  | cons j rest ih => simp [List.countP_cons, Event.isJourneyRegister, ih]

theorem countP_exec_map (js : List JourneySpec) :
    ((js.map fun j => Event.journeyRegister j.name).countP Event.isExecutionEvent)
      = 0 := by
  induction js with
  | nil => rfl
  | cons j rest ih => simp [List.countP_cons, Event.isExecutionEvent, ih]

/-! ### Claim theorems -/

/-- C1: For every journey whose step k (1-indexed, among N registered
steps) is the first step that fails, the step executor is never invoked
for steps k+1..N (the invoked log stops at step k) and their StepResults
all have status skipped, steps 1..k-1 all have status succeeded, and the
JourneyResult status is failed with the failing step's error attached; a
step's result is skipped if and only if an earlier step of the same
journey failed.  Indices are 0-based here: the claim's step k is index
kidx = k-1.  The hypotheses say that the journey's other stages complete
normally and that index kidx holds the first failed result. -/
theorem firstFailure_skip_propagation
    (j : JourneySpec) (opts : RunOptions) (kidx : Nat) (rk : StepResult)
    (h1 : j.setupDriverThrows = none) (h2 : j.beginRecordingThrows = none)
    (h3 : j.callbackThrows = none) (h4 : j.beforeHooksThrow = none)
    (h5 : j.afterHooksThrow = none) (h6 : j.outputThrows = none)
    (herr : (runStepsFn j opts).err = none)
    (hk : (runStepsFn j opts).results[kidx]? = some rk)
    (hfail : rk.status = Status.failed)
    (hfirst : ∀ (i : Nat) (ri : StepResult), i < kidx →
      (runStepsFn j opts).results[i]? = some ri → ri.status ≠ Status.failed) :
    (runStepsFn j opts).invoked =
      (j.registeredSteps.take (kidx+1)).map StepSpec.name ∧
    (runStepsFn j opts).results.length = j.registeredSteps.length ∧
    (∀ (i : Nat) (ri : StepResult), i < kidx →
      (runStepsFn j opts).results[i]? = some ri →
        ri.status = Status.succeeded) ∧
    (∀ (i : Nat) (ri : StepResult), kidx < i →
      (runStepsFn j opts).results[i]? = some ri → ri = skippedResult) ∧
    rk.error.isSome = true ∧
    (runJourney j opts).result =
      Except.ok { status := Status.failed, error := rk.error } ∧
    (∀ (i : Nat) (ri : StepResult), (runStepsFn j opts).results[i]? = some ri →
      (ri.status = Status.skipped ↔
        ∃ (m : Nat), m < i ∧ ∃ (rm : StepResult),
          (runStepsFn j opts).results[m]? = some rm ∧
          rm.status = Status.failed)) := by
  have hw := stepsGo_first_fail j.name opts j.registeredSteps kidx rk herr hk hfail hfirst
  refine ⟨hw.1, stepsGo_results_length j.name opts j.registeredSteps false herr,
    hw.2.1, hw.2.2.1, hw.2.2.2.1, ?_,
    stepsGo_skipped_iff j.name opts j.registeredSteps herr⟩
  rw [runJourney_no_throw j opts h1 h2 h6]
  dsimp only
  rw [tryPhase_no_throw j opts h3 h4 herr h5]
  dsimp only
  unfold runStepsFn
  rw [hw.2.2.2.2]

/-- Witness for C1 at the journey [A succeeds, B throws x, C succeeds]
with the first failure at step 2 (index 1). -/
theorem firstFailure_skip_propagation_witness :
    (runStepsFn jW1 plainOpts).invoked = ["A", "B"] ∧
    (runJourney jW1 plainOpts).result =
      Except.ok { status := Status.failed, error := some "x" } := by
  have hf : ∀ (i : Nat) (ri : StepResult), i < 1 →
      (runStepsFn jW1 plainOpts).results[i]? = some ri →
      ri.status ≠ Status.failed := by
    intro i ri hi hri
    have hi0 : i = 0 := by omega
    subst hi0
    have hx : (runStepsFn jW1 plainOpts).results[0]? =
        some { status := Status.succeeded, url := some "about:blank",
               metrics := none, error := none, screenshot := none } := by rfl
    rw [hx, Option.some.injEq] at hri
    rw [← hri]
    simp
  have h := firstFailure_skip_propagation jW1 plainOpts 1
      { status := Status.failed, url := some "about:blank", metrics := none,
        error := some "x", screenshot := none }
      rfl rfl rfl rfl rfl rfl rfl (by rfl) rfl hf
  exact ⟨h.1.trans (by rfl), h.2.2.2.2.2.1⟩

/-- C2: the code violates the driver-release claim.  When
`beginRecording` throws during context creation, a driver was set up but
`Gatherer.dispose` is never called (createContext runs outside the
try/finally of runJourney); likewise, when `pluginManager.output()`
throws inside endJourney, the subsequent dispose call is never reached.
In both cases the exception propagates out of runJourney. -/
theorem dispose_skipped_on_context_or_output_throw :
    (runJourney jRecFail plainOpts).driverCreated = true ∧
    (runJourney jRecFail plainOpts).disposeCount = 0 ∧
    (runJourney jRecFail plainOpts).result = Except.error "rec" ∧
    (runJourney jOutFail plainOpts).driverCreated = true ∧
    (runJourney jOutFail plainOpts).disposeCount = 0 ∧
    (runJourney jOutFail plainOpts).result = Except.error "out" :=
  ⟨rfl, rfl, rfl, rfl, rfl, rfl⟩

/-- C3 counterexample: an exception during context creation is NOT caught
at the journey boundary — it propagates out of runJourney, aborts the
run, and the remaining journeys are never executed. -/
theorem contextCreation_error_propagates :
    (runJourney jSetupFail plainOpts).result = Except.error "boom" ∧
    (runFn plainOpts stSetupFail).result = Except.error "boom" ∧
    (runFn plainOpts stSetupFail).executed = ["jboom"] :=
  ⟨rfl, rfl, rfl⟩

/-- C3 amended: provided context creation and artifact gathering succeed,
an exception thrown during the registration callback, the before hooks,
the step loop, or the after hooks is caught at the journey boundary and
turned into a JourneyResult with status failed and that exception
attached (it does not propagate out of the journey executor). -/
theorem journey_stage_errors_absorbed
    (j : JourneySpec) (opts : RunOptions) (e : Err)
    (h1 : j.setupDriverThrows = none) (h2 : j.beginRecordingThrows = none)
    (h6 : j.outputThrows = none)
    (h : earlyError j opts = some e ∨
         (earlyError j opts = none ∧ j.afterHooksThrow = some e)) :
    (runJourney j opts).result =
      Except.ok { status := Status.failed, error := some e } := by
  rw [runJourney_no_throw j opts h1 h2 h6]
  dsimp only
  rcases h with he | ⟨hno, ha⟩
  · rw [(tryPhase_early_jres j opts e he).1]
  · rw [(tryPhase_after_throw j opts e hno ha).1]

/-- Witness for C3's amended theorem: a journey whose registration
callback throws reg yields a failed JourneyResult carrying reg. -/
theorem journey_stage_errors_absorbed_witness :
    (runJourney jRegFail plainOpts).result =
      Except.ok { status := Status.failed, error := some "reg" } :=
  journey_stage_errors_absorbed jRegFail plainOpts "reg" rfl rfl rfl (Or.inl rfl)

/-- C4 counterexample: an exception thrown by the load-state wait or by
the screenshot capture in the finishing (finally) block is NOT recorded
in a failed StepResult — runStep propagates it to its caller. -/
theorem screenshot_error_propagates :
    runStep sLoadFail shotOpts = Except.error "ls" ∧
    runStep sShotFail shotOpts = Except.error "sc" :=
  ⟨rfl, rfl⟩

/-- C4 amended: when the finishing block succeeds (screenshots off, or
both the load-state wait and the screenshot capture succeed), an
exception from the plugin pre-step hook, the step callback, or metrics
retrieval is absorbed into a StepResult with status failed and the error
attached, and a throw-free try block yields status succeeded; exceptions
from the finishing block itself propagate out of the step executor. -/
theorem step_try_errors_absorbed (s : StepSpec) (opts : RunOptions) (e : Err)
    (hfin : opts.screenshots = false ∨
      (s.loadStateThrows = none ∧ s.screenshotThrows = none)) :
    (tryOutcome s opts = Except.error e →
      statusOf (runStep s opts) = some Status.failed ∧
      errorOf (runStep s opts) = some e) ∧
    (∀ m : Option Metrics, tryOutcome s opts = Except.ok m →
      statusOf (runStep s opts) = some Status.succeeded ∧
      errorOf (runStep s opts) = none) := by
  obtain ⟨r, hr⟩ := runStep_ok_of_fin s opts hfin
  obtain ⟨hst, herr2, _⟩ := runStep_ok_fields s opts r hr
  constructor
  · intro hto
    unfold stepBase at hst herr2
    rw [hto] at hst herr2
    dsimp only at hst herr2
    rw [hr]
    unfold statusOf errorOf
    exact ⟨by simp [hst], by simp [herr2]⟩
  · intro m hto
    unfold stepBase at hst herr2
    rw [hto] at hst herr2
    dsimp only at hst herr2
    rw [hr]
    unfold statusOf errorOf
    exact ⟨by simp [hst], by simp [herr2]⟩

/-- Witness for C4's amended theorem: a step whose callback throws cx
(screenshots off) is absorbed into a failed StepResult carrying cx. -/
theorem step_try_errors_absorbed_witness :
    statusOf (runStep sCbFail plainOpts) = some Status.failed ∧
    errorOf (runStep sCbFail plainOpts) = some "cx" :=
  (step_try_errors_absorbed sCbFail plainOpts "cx" (Or.inl rfl)).1 rfl

/-- C5: if run is called while the same engine instance's active flag is
already set, it returns an empty result mapping immediately, emits no
events, executes no journey, attaches no reporter, and leaves all engine
state (active flag, journey list, current journey, hooks, reporter count)
unchanged. -/
theorem reentrancy_guard_no_side_effects (opts : RunOptions) (s : RunnerState)
    (h : s.active = true) :
    runFn opts s =
      { result := Except.ok [], events := [], executed := [], finalState := s } := by
  unfold runFn
  rw [if_pos h]

/-- Witness for C5 at a state with an in-flight run. -/
theorem reentrancy_guard_no_side_effects_witness :
    runFn plainOpts stActive =
      { result := Except.ok [], events := [], executed := [],
        finalState := stActive } :=
  reentrancy_guard_no_side_effects plainOpts stActive rfl

/-- C6 counterexample: in a journey whose only step throws during
screenshot capture, the step's `step:start` is emitted but its matching
`step:end` never is (the journey still ends with `journey:end`), so the
claimed per-step start/end pairing does not hold for every executed
journey. -/
theorem missing_stepEnd_on_screenshot_throw :
    (runJourney jShotThrow shotOpts).events =
      [Event.journeyStart "jshot", Event.stepStart "jshot" "sload",
       Event.journeyEnd "jshot" Status.failed] ∧
    (runJourney jShotThrow shotOpts).events.countP Event.isStepStart = 1 ∧
    (runJourney jShotThrow shotOpts).events.countP Event.isStepEnd = 0 :=
  ⟨rfl, rfl, rfl⟩

/-- C6 amended: for every executed (non-dry-run, non-filtered) journey in
which no stage throws (registration, hooks, every invoked step execution
returns a result, artifact gathering succeeds), the emitted sequence is
exactly one `journey:start`, then for each registered step in order a
`step:start` immediately followed by the matching `step:end` (skipped
steps included), then one `journey:end`; and the whole run's trace is the
`start` event, the journeys' blocks concatenated in order with no
interleaving, then the `end` event. -/
theorem event_order_no_throw (opts : RunOptions) (s : RunnerState)
    (h0 : s.active = false) (hdry : opts.dryRun = false)
    (hname : opts.journeyName = none)
    (hba : s.beforeAllThrow = none) (haa : s.afterAllThrow = none)
    (hj : ∀ j ∈ s.journeys, NoThrowJourney j opts) :
    (runFn opts s).events =
      Event.start s.journeys.length ::
        journeysEvents opts s.journeys ++ [Event.runEnd] ∧
    (∀ j ∈ s.journeys, (runJourney j opts).events = journeyTrace j opts) ∧
    (∀ j ∈ s.journeys,
      PairedTrace j.name (j.registeredSteps.map StepSpec.name)
        (runStepsFn j opts).events) := by
  have hok : ∀ j ∈ s.journeys, ∃ jr, (runJourney j opts).result = Except.ok jr := by
    intro j hjm
    obtain ⟨n1, n2, n3, n4, n5, n6, n7⟩ := hj j hjm
    rw [runJourney_no_throw j opts n1 n2 n6]
    exact ⟨_, rfl⟩
  have hloop := runLoop_all_ok opts hdry hname s.journeys s.currentJourney hok
  refine ⟨?_, ?_, ?_⟩
  · unfold runFn
    rw [if_neg (by rw [h0]; simp)]
    dsimp only
    rw [hba]
    dsimp only
    rw [hloop.1]
    dsimp only
    rw [haa]
    dsimp only
    rw [hloop.2.1]
    simp
  · intro j hjm
    obtain ⟨n1, n2, n3, n4, n5, n6, n7⟩ := hj j hjm
    rw [runJourney_no_throw j opts n1 n2 n6]
    dsimp only
    rw [tryPhase_no_throw j opts n3 n4 n7 n5]
    rfl
  · intro j hjm
    obtain ⟨_, _, _, _, _, _, n7⟩ := hj j hjm
    exact stepsGo_paired j.name opts j.registeredSteps false n7

/-- Witness for C6's amended theorem at a two-journey state. -/
theorem event_order_no_throw_witness :
    (runFn plainOpts stTwo).events =
      Event.start 2 :: journeysEvents plainOpts stTwo.journeys ++ [Event.runEnd] := by
  have h := event_order_no_throw plainOpts stTwo rfl rfl rfl rfl rfl ?hj
  case hj =>
    intro j hjm
    rcases List.mem_cons.mp hjm with hh | hjm2
    · subst hh
      exact ⟨rfl, rfl, rfl, rfl, rfl, rfl, rfl⟩
    rcases List.mem_cons.mp hjm2 with hh | hjm3
    · subst hh
      exact ⟨rfl, rfl, rfl, rfl, rfl, rfl, rfl⟩
    · cases hjm3
  exact h.1

/-- C7: for every run with the dryRun option set (and the run-level hooks
completing normally), the engine emits exactly one `journey:register`
event per registered journey, emits zero `step:start`, `step:end`,
`journey:start` or `journey:end` events, executes no journey, and
returns an empty RunResult mapping. -/
theorem dry_run_registers_only (opts : RunOptions) (s : RunnerState)
    (h0 : s.active = false) (hdry : opts.dryRun = true)
    (hba : s.beforeAllThrow = none) (haa : s.afterAllThrow = none) :
    (runFn opts s).result = Except.ok [] ∧
    (runFn opts s).executed = [] ∧
    (runFn opts s).events =
      Event.start s.journeys.length ::
        (s.journeys.map fun j => Event.journeyRegister j.name) ++ [Event.runEnd] ∧
    (runFn opts s).events.countP Event.isJourneyRegister = s.journeys.length ∧
    (runFn opts s).events.countP Event.isExecutionEvent = 0 := by
  have hloop := runLoop_dryRun opts hdry s.journeys s.currentJourney
  have hrun : (runFn opts s).result = Except.ok [] ∧
      (runFn opts s).executed = [] ∧
      (runFn opts s).events =
        Event.start s.journeys.length ::
          (s.journeys.map fun j => Event.journeyRegister j.name) ++ [Event.runEnd] := by
    unfold runFn
    rw [if_neg (by rw [h0]; simp)]
    dsimp only
    rw [hba]
    dsimp only
    rw [hloop]
    dsimp only
    rw [haa]
    dsimp only
    exact ⟨rfl, rfl, by simp⟩
  refine ⟨hrun.1, hrun.2.1, hrun.2.2, ?_, ?_⟩
  · rw [hrun.2.2]
    simp [List.countP_cons, List.countP_append, Event.isJourneyRegister,
      countP_register_map]
  · rw [hrun.2.2]
    simp [List.countP_cons, List.countP_append, Event.isExecutionEvent,
      countP_exec_map]

/-- Witness for C7 at a two-journey state with dry-run options. -/
theorem dry_run_registers_only_witness :
    (runFn dryOpts stTwo).result = Except.ok [] ∧
    (runFn dryOpts stTwo).executed = [] ∧
    (runFn dryOpts stTwo).events =
      [Event.start 2, Event.journeyRegister "j1", Event.journeyRegister "next",
       Event.runEnd] := by
  have h := dry_run_registers_only dryOpts stTwo rfl rfl rfl rfl
  exact ⟨h.1, h.2.1, h.2.2.1.trans (by rfl)⟩

/-- C8: for every journey whose context creation and artifact gathering
succeed, the after-hooks run exactly when registration, the before-hooks
and the step loop completed without throwing (in particular they run when
steps merely failed as result values); when one of those stages threw,
the after-hooks are skipped and the thrown error becomes the journey's
error. -/
theorem after_hooks_iff_no_early_throw (j : JourneySpec) (opts : RunOptions)
    (h1 : j.setupDriverThrows = none) (h2 : j.beginRecordingThrows = none)
    (h6 : j.outputThrows = none) :
    ((runJourney j opts).afterHooksRan = true ↔ earlyError j opts = none) ∧
    (∀ e : Err, earlyError j opts = some e →
      (runJourney j opts).afterHooksRan = false ∧
      (runJourney j opts).result =
        Except.ok { status := Status.failed, error := some e }) := by
  rw [runJourney_no_throw j opts h1 h2 h6]
  dsimp only
  constructor
  · constructor
    · intro hr
      cases he : earlyError j opts with
      | none => rfl
      | some e =>
        have hfr := (tryPhase_early_jres j opts e he).2
        rw [hfr] at hr
        cases hr
    · intro hno
      exact tryPhase_no_early_afterRan j opts hno
  · intro e he
    obtain ⟨hj2, ha⟩ := tryPhase_early_jres j opts e he
    exact ⟨ha, by rw [hj2]⟩

/-- Witness for C8: before-hooks throwing bh skips the after-hooks and
makes bh the journey error; the step-failure journey still runs them. -/
theorem after_hooks_iff_no_early_throw_witness :
    (runJourney jBeforeFail plainOpts).afterHooksRan = false ∧
    (runJourney jBeforeFail plainOpts).result =
      Except.ok { status := Status.failed, error := some "bh" } ∧
    (runJourney jW1 plainOpts).afterHooksRan = true := by
  have h := (after_hooks_iff_no_early_throw jBeforeFail plainOpts rfl rfl rfl).2 "bh" rfl
  have h2 := (after_hooks_iff_no_early_throw jW1 plainOpts rfl rfl rfl).1.mpr rfl
  exact ⟨h.1, h.2, h2⟩

/-- C9 counterexample: when the first request observed during the step is
not a navigation request, the listener still detaches, so the URL of the
later (first) navigation request u2 is never captured: the result falls
back to the page URL p instead. -/
theorem first_nav_request_not_captured :
    urlOf (runStep sNavSecond plainOpts) = some "p" ∧
    firstNavUrl sNavSecond.requests = some "u2" ∧
    ("p" : String) ≠ "u2" :=
  ⟨rfl, rfl, by decide⟩

/-- C9 amended: for every step execution that returns a result
(regardless of the step's outcome), the StepResult's url field is the URL
of the first request observed on the driver's request stream provided
that first request is a navigation request — the listener detaches after
the first request event of any kind — and otherwise (no request, or a
non-navigation first request) it is the driver's current page URL. -/
theorem url_from_first_request_or_page (s : StepSpec) (opts : RunOptions)
    (r : StepResult) (h : runStep s opts = Except.ok r) :
    r.url = some (finalUrl s) ∧
    finalUrl s = (match s.requests with
      | [] => s.pageUrl
      | req :: _ => if req.isNavigationRequest then req.url else s.pageUrl) := by
  constructor
  · exact (runStep_ok_fields s opts r h).2.2.trans (stepBase_url s opts)
  · unfold finalUrl capturedUrl
    cases s.requests with
    | nil => rfl
    | cons req rest =>
      dsimp only
      by_cases hn : req.isNavigationRequest = true
      · rw [hn]
        simp
      · have hn2 : req.isNavigationRequest = false := by simpa using hn
        rw [hn2]
        simp

/-- Witness for C9's amended theorem at a step whose first request is the
navigation request for u1. -/
theorem url_from_first_request_or_page_witness :
    urlOf (runStep sNavFirst plainOpts) = some (finalUrl sNavFirst) := by
  have hr : runStep sNavFirst plainOpts =
      Except.ok { status := Status.succeeded, url := some "u1", metrics := none,
                  error := none, screenshot := none } := rfl
  have h := url_from_first_request_or_page sNavFirst plainOpts _ hr
  rw [hr]
  exact h.1

/-- C10: if a run-level beforeAll or afterAll hook throws, the exception
propagates out of run before reset is called, so the engine instance's
active flag remains true, its journey list is not cleared, no end event
is emitted, and every subsequent call to run on that same instance
returns an empty result without executing anything. -/
theorem runlevel_hook_throw_leaves_active (opts : RunOptions) (s : RunnerState)
    (e : Err) (h0 : s.active = false)
    (h : s.beforeAllThrow = some e ∨
        (s.beforeAllThrow = none ∧
         (runLoop opts s.journeys s.currentJourney).err = none ∧
         s.afterAllThrow = some e)) :
    (runFn opts s).result = Except.error e ∧
    (runFn opts s).finalState.active = true ∧
    (runFn opts s).finalState.journeys = s.journeys ∧
    Event.runEnd ∉ (runFn opts s).events ∧
    (∀ opts2 : RunOptions, runFn opts2 ((runFn opts s).finalState) =
      { result := Except.ok [], events := [], executed := [],
        finalState := (runFn opts s).finalState }) := by
  rcases h with hba | ⟨hba, hle, haa⟩
  · have hrun : runFn opts s =
        { result := Except.error e, events := [Event.start s.journeys.length],
          executed := [],
          finalState := { s with active := true, reporterCount := s.reporterCount + 1 } } := by
      unfold runFn
      rw [if_neg (by rw [h0]; simp)]
      dsimp only
      rw [hba]
    rw [hrun]
    refine ⟨rfl, rfl, rfl, by simp, ?_⟩
    intro opts2
    unfold runFn
    rw [if_pos rfl]
  · have hrun : runFn opts s =
        { result := Except.error e,
          events := Event.start s.journeys.length ::
            (runLoop opts s.journeys s.currentJourney).events,
          executed := (runLoop opts s.journeys s.currentJourney).executed,
          finalState := { s with active := true, reporterCount := s.reporterCount + 1, currentJourney := (runLoop opts s.journeys s.currentJourney).current } } := by
      unfold runFn
      rw [if_neg (by rw [h0]; simp)]
      dsimp only
      rw [hba]
      dsimp only
      rw [hle]
      dsimp only
      rw [haa]
      rfl
    rw [hrun]
    refine ⟨rfl, rfl, rfl, ?_, ?_⟩
    · intro hmem
      rcases List.mem_cons.mp hmem with hh | hmem
      · cases hh
      · exact runLoop_no_runEnd opts s.journeys s.currentJourney hmem
    · intro opts2
      unfold runFn
      rw [if_pos rfl]

/-- Witness for C10 at a state whose beforeAll hook throws ba. -/
theorem runlevel_hook_throw_leaves_active_witness :
    (runFn plainOpts stBeforeAll).result = Except.error "ba" ∧
    (runFn plainOpts stBeforeAll).finalState.active = true ∧
    runFn plainOpts ((runFn plainOpts stBeforeAll).finalState) =
      { result := Except.ok [], events := [], executed := [],
        finalState := (runFn plainOpts stBeforeAll).finalState } := by
  have h := runlevel_hook_throw_leaves_active plainOpts stBeforeAll "ba" rfl (Or.inl rfl)
  exact ⟨h.1, h.2.1, h.2.2.2.2 plainOpts⟩
